import Mathlib

/-
Shallow embedding of `handlebars-iron` (src/middleware.rs): a Handlebars
template registry behind a read/write lock, a vector of template sources,
a `reload` operation, and an Iron after-middleware that renders a `Template`
marker attached to a response.

External collaborators (the `handlebars` crate's registry, Iron's
response/typemap, the `Source` trait from source.rs which is not part of
the given sources) are modelled as the minimal capabilities the middleware
uses: a named-template store with `clear_templates`/`register`/`render`,
a response record with headers/body/status and a typed-extension slot for
the single key used here, and a source as a deterministic supplier of
named templates (or a load error).
-/

namespace HbIron

/-- Serialized JSON data payload (`serialize::json::Json` / `serde_json::Value`). -/
inductive Json where
  | null : Json
  | bool (b : Bool) : Json
  | num (n : Int) : Json
  | str (s : String) : Json
  | arr (l : List Json) : Json
  | obj (l : List (String × Json)) : Json

/-- A render-time error of the template engine (`handlebars::RenderError`). -/
structure RenderError where
  desc : String
deriving DecidableEq

/-- Error returned by a failing source load (`source::SourceError`, external to src/). -/
structure SourceError where
  desc : String
deriving DecidableEq

/-- The render behavior of one compiled template: data in, rendered text or error out.
The templating engine's rendering semantics are an external collaborator, so a
template is modelled by its observable render function. -/
abbrev Tmpl := Json → Except RenderError String

/-- The template registry of the `handlebars` crate, modelled as the named-template
store the middleware uses: an association list from template names to templates. -/
structure Handlebars where
  templates : List (String × Tmpl)

/-- Embeds `Handlebars::clear_templates`: removes all loaded templates. -/
def Handlebars.clear_templates (_h : Handlebars) : Handlebars :=
  { templates := [] }

/-- Insert a binding into an association list, replacing an existing binding
for the same key (the handlebars registry keys templates by name). -/
def insertTemplate (name : String) (t : Tmpl) : List (String × Tmpl) → List (String × Tmpl)
  | [] => [(name, t)]
  | (k, v) :: rest =>
    if k = name then (name, t) :: rest else (k, v) :: insertTemplate name t rest

/-- Template registration entry point used by sources. -/
def Handlebars.registerTemplate (h : Handlebars) (name : String) (t : Tmpl) : Handlebars :=
  { templates := insertTemplate name t h.templates }

/-- Embeds `Handlebars::render(name, data)`: renders the named template on the data,
failing when the name is not registered or the template itself fails. -/
def Handlebars.render (h : Handlebars) (name : String) (data : Json) : Except RenderError String :=
  match h.templates.lookup name with
  | some t => t data
  | none => Except.error { desc := "Template not found " ++ name }

/-- Modelled from the spec: the `Source` capability (trait `Source` in source.rs,
which is not among the given sources). Per the spec a source is a stateless,
self-contained capability that, given a mutable engine handle, loads zero or
more named templates into it or fails; it is modelled by the list of named
templates it contributes, or its load error. -/
structure Source where
  load_result : Except SourceError (List (String × Tmpl))

/-- Modelled from the spec: `Source::load(&self, &mut Handlebars)` registers the
source's templates into the engine, or fails without touching it. -/
def Source.load (s : Source) (h : Handlebars) : Except SourceError Handlebars :=
  match s.load_result with
  | Except.error e => Except.error e
  | Except.ok ts => Except.ok (ts.foldl (fun acc p => acc.registerTemplate p.1 p.2) h)

/-- Embeds `HandlebarsEngine`: the ordered source list and the engine behind the lock.
The lock itself is modelled separately (see the concurrency section); the
sequential operations act on the unwrapped state. -/
structure HandlebarsEngine where
  sources : List Source
  registry : Handlebars

/-- Embeds `HandlebarsEngine::new2()`: empty source list, fresh registry. -/
def HandlebarsEngine.new2 : HandlebarsEngine :=
  { sources := [], registry := { templates := [] } }

/-- Embeds `HandlebarsEngine::from2(reg)`: empty source list, caller-provided registry. -/
def HandlebarsEngine.from2 (reg : Handlebars) : HandlebarsEngine :=
  { sources := [], registry := reg }

/-- Embeds `HandlebarsEngine::add(source)`: appends a source to the ordered list. -/
def HandlebarsEngine.add (e : HandlebarsEngine) (s : Source) : HandlebarsEngine :=
  { e with sources := e.sources ++ [s] }

/-- The source-loading loop of `reload`: runs each source's load in order on the
current engine state, stopping at the first failure (`try!`); returns the final
engine state together with the error of the failing source, if any. -/
def reloadAux : List Source → Handlebars → Handlebars × Option SourceError
  | [], h => (h, none)
  | s :: ss, h =>
    match s.load h with
    | Except.error e => (h, some e)
    | Except.ok h' => reloadAux ss h'

/-- Embeds `HandlebarsEngine::reload()`: takes the write lock, clears all templates,
then loads every source in registration order, propagating the first error.
`none` in the second component is `Ok(())`, `some e` is `Err(e)`. -/
def HandlebarsEngine.reload (e : HandlebarsEngine) : HandlebarsEngine × Option SourceError :=
  let p := reloadAux e.sources e.registry.clear_templates
  ({ e with registry := p.1 }, p.2)

/-- The `Template` marker: a template name plus a serialized data payload. -/
structure Template where
  name : String
  value : Json

/-- Embeds `Template::new(name, value)`: the payload is already in serialized form here
(the `ToJson`/`Serialize` conversion is the caller's, external collaborator). -/
def Template.new (name : String) (value : Json) : Template :=
  { name := name, value := value }

/-- Iron's headers, projected to what the middleware touches: the typed
`ContentType` header plus all remaining headers, untouched by this code. -/
structure Headers where
  contentType : Option String
  rest : List (String × String)

/-- Embeds `ContentType::html()`. -/
def contentTypeHtml : String := "text/html; charset=utf-8"

/-- Iron's `Response`, projected to the fields the middleware reads or writes:
status, headers, body, and the typed-extension slot for the one key this crate
registers (`HandlebarsEngine`, whose value type is `Template`). -/
structure Response where
  status : Option Nat
  headers : Headers
  body : Option String
  extensions : Option Template

/-- Embeds `status::InternalServerError`. -/
def internalServerError : Nat := 500

/-- Embeds `IronError::new(cause, status)` as produced by this middleware: the render
error as cause, plus the HTTP status it is mapped to. -/
structure IronError where
  cause : RenderError
  status : Nat
deriving DecidableEq

/-- Embeds `impl Modifier<Response> for Template`: inserts the marker into the
response's typed-extension slot (`extensions.insert::<HandlebarsEngine>`). -/
def Template.modify (t : Template) (r : Response) : Response :=
  { r with extensions := some t }

/-- Embeds `impl Plugin<Response> for HandlebarsEngine`: `eval` reads the marker from
the extension slot and clones it. It takes `&mut Response` but never mutates,
so the (unchanged) response is returned alongside the result. -/
def HandlebarsEngine.eval (r : Response) : Except Unit Template × Response :=
  (match r.extensions with
   | some t => Except.ok t
   | none => Except.error (), r)

/-- Embeds `AfterMiddleware::after`: if a marker is attached, render it under the read
lock; on success set the content type to HTML unless one is already set and
replace the body with the rendered page; on failure return an `IronError`
wrapping the render error with status 500; with no marker, pass through. -/
def HandlebarsEngine.after (e : HandlebarsEngine) (r : Response) : Except IronError Response :=
  let page_wrapper := r.extensions.map (fun h => e.registry.render h.name h.value)
  match page_wrapper with
  | some (Except.ok page) =>
    let r1 :=
      if r.headers.contentType.isSome then r
      else { r with headers := { r.headers with contentType := some contentTypeHtml } }
    Except.ok { r1 with body := some page }
  | some (Except.error err) =>
    Except.error { cause := err, status := internalServerError }
  | none => Except.ok r

/-- Embeds `HandlebarsEngine::new(prefix, suffix)` (deprecated constructor): builds an
empty engine, adds the directory source, reloads, and panics on a load error.
The directory source (sources/directory.rs, not among the given sources) is
modelled from the spec as an arbitrary `Source` value `dir`; the panic is
modelled as `none`. -/
def HandlebarsEngine.new (dir : Source) : Option HandlebarsEngine :=
  let hbs := HandlebarsEngine.new2.add dir
  match hbs.reload with
  | (h, none) => some h
  | (_, some _) => none

/-- Embeds `HandlebarsEngine::from(prefix, suffix, custom)` (deprecated constructor):
like `new` but starting from a caller-provided registry. Named `from'` because
`from` is reserved in Lean. -/
def HandlebarsEngine.from' (dir : Source) (custom : Handlebars) : Option HandlebarsEngine :=
  let hbs := (HandlebarsEngine.from2 custom).add dir
  match hbs.reload with
  | (h, none) => some h
  | (_, some _) => none

/-
Concurrency model of the `RwLock<Box<Handlebars>>`: one reload (writer)
thread decomposed into its micro-steps (acquire the write lock, clear the
templates, load each source in order, release — also on the early error
return), and any number of render (reader) threads (acquire the read lock,
observe the guarded registry for the render call, release). The lock's
contract — the writer enters only when no reader holds, a reader enters only
when the writer is not inside — is the interleaving discipline; everything
else is proved.
-/

/-- Program counter of the reload (writer) thread. `inCS k` means the write
lock is held and `k` micro-operations of `reload`'s body are done: `inCS 0`
just acquired, `inCS 1` templates cleared, `inCS (1 + i)` cleared and the
first `i` sources loaded. `doneW` means `reload` returned (lock released). -/
inductive WriterPC where
  | beforeLock : WriterPC
  | inCS : Nat → WriterPC
  | doneW : WriterPC
deriving DecidableEq

/-- Whether the writer currently holds the write lock. -/
def WriterPC.isInCS : WriterPC → Bool
  | .inCS _ => true
  | _ => false

/-- Program counter of one render (reader) thread: not yet started, holding
the read lock with the registry state it observes for its render call, or
finished with the state it observed. -/
inductive ReaderPC where
  | beforeR : ReaderPC
  | holdingR : Handlebars → ReaderPC
  | doneR : Handlebars → ReaderPC

/-- Whether a reader currently holds the read lock. -/
def ReaderPC.isHolding : ReaderPC → Bool
  | .holdingR _ => true
  | _ => false

/-- Global state of the interleaved system: the engine guarded by the lock,
the writer's pc, and the pc of every reader thread. -/
structure Sys where
  engine : Handlebars
  writer : WriterPC
  readers : Nat → ReaderPC

/-- No reader holds the read lock. -/
def NoHolder (rs : Nat → ReaderPC) : Prop := ∀ i, (rs i).isHolding = false

/-- One interleaving micro-step, parameterized by the registered source list.
The two lock-acquisition steps carry the `RwLock` contract as side conditions;
the writer steps mirror `reload`'s body, the reader steps mirror the read-locked
render in `after`. -/
inductive Step (ss : List Source) : Sys → Sys → Prop
  | acquireW (eng : Handlebars) (rs : Nat → ReaderPC) (hnr : NoHolder rs) :
      Step ss ⟨eng, .beforeLock, rs⟩ ⟨eng, .inCS 0, rs⟩
  | clearW (eng : Handlebars) (rs : Nat → ReaderPC) :
      Step ss ⟨eng, .inCS 0, rs⟩ ⟨eng.clear_templates, .inCS 1, rs⟩
  | loadOkW (eng : Handlebars) (rs : Nat → ReaderPC) (i : Nat) (s : Source)
      (eng' : Handlebars) (hi : ss.get? i = some s) (hl : s.load eng = Except.ok eng') :
      Step ss ⟨eng, .inCS (i + 1), rs⟩ ⟨eng', .inCS (i + 2), rs⟩
  | loadFailW (eng : Handlebars) (rs : Nat → ReaderPC) (i : Nat) (s : Source)
      (err : SourceError) (hi : ss.get? i = some s) (hl : s.load eng = Except.error err) :
      Step ss ⟨eng, .inCS (i + 1), rs⟩ ⟨eng, .doneW, rs⟩
  | finishW (eng : Handlebars) (rs : Nat → ReaderPC) :
      Step ss ⟨eng, .inCS (ss.length + 1), rs⟩ ⟨eng, .doneW, rs⟩
  | acquireR (eng : Handlebars) (w : WriterPC) (rs : Nat → ReaderPC) (i : Nat)
      (hi : rs i = .beforeR) (hw : w.isInCS = false) :
      Step ss ⟨eng, w, rs⟩ ⟨eng, w, Function.update rs i (.holdingR eng)⟩
  | releaseR (eng : Handlebars) (w : WriterPC) (rs : Nat → ReaderPC) (i : Nat)
      (obs : Handlebars) (hi : rs i = .holdingR obs) :
      Step ss ⟨eng, w, rs⟩ ⟨eng, w, Function.update rs i (.doneR obs)⟩

/-- Reachability by interleaving micro-steps. -/
inductive Reach (ss : List Source) (s0 : Sys) : Sys → Prop
  | refl : Reach ss s0 s0
  | tail {s s' : Sys} : Reach ss s0 s → Step ss s s' → Reach ss s0 s'

/-- Initial state: engine holds the pre-reload template set `e0`, the reload
has not started, no render has started. -/
def initSys (e0 : Handlebars) : Sys :=
  { engine := e0, writer := .beforeLock, readers := fun _ => .beforeR }

/-- The registry contents after a completed reload (successful or not) of the
given source list over an engine that held `e0`. -/
def reloadResult (ss : List Source) (e0 : Handlebars) : Handlebars :=
  (HandlebarsEngine.mk ss e0).reload.1.registry

/-- The engine state after the clear and the first `i` source loads of a
reload, provided none of those loads failed. -/
def loadFirst : List Source → Nat → Handlebars → Option Handlebars
  | _, 0, h => some h
  | [], _ + 1, _ => none
  | s :: ss, i + 1, h =>
    match s.load h with
    | Except.error _ => none
    | Except.ok h' => loadFirst ss i h'

/-- The inductive invariant: the writer's pc determines the guarded engine
state (pre-reload, a cleared/partially loaded mid-state, or the post-reload
result), no reader holds the read lock while the writer is inside, a holding
reader observes exactly the current engine, and a finished reader observed
either the pre- or the post-reload state. -/
def Inv (ss : List Source) (e0 : Handlebars) (s : Sys) : Prop :=
  (match s.writer with
   | .beforeLock => s.engine = e0
   | .inCS 0 => s.engine = e0 ∧ NoHolder s.readers
   | .inCS (i + 1) =>
       loadFirst ss i e0.clear_templates = some s.engine ∧ NoHolder s.readers
   | .doneW => s.engine = reloadResult ss e0)
  ∧ (∀ i obs, s.readers i = .holdingR obs → obs = s.engine)
  ∧ (∀ i obs, s.readers i = .doneR obs → obs = e0 ∨ obs = reloadResult ss e0)

/-- Reloading depends only on the source list, never on the current registry
contents, because `reload` begins by clearing all templates. -/
theorem reload_ignores_registry (ss : List Source) (reg reg' : Handlebars) :
    (HandlebarsEngine.mk ss reg).reload.1.registry = (HandlebarsEngine.mk ss reg').reload.1.registry
    ∧ (HandlebarsEngine.mk ss reg).reload.2 = (HandlebarsEngine.mk ss reg').reload.2 :=
  ⟨rfl, rfl⟩

/-- C1: reload() first clears all loaded templates, then runs each source's load
in registration order, stopping at the first failing source and returning its
error; with sources [s1, s2] where s1 succeeds (contributing ts) and s2 fails,
the engine ends up with exactly s1's contribution and reload returns s2's error. -/
theorem reload_stops_at_first_failure (e : HandlebarsEngine) (s1 s2 : Source)
    (ts : List (String × Tmpl)) (err : SourceError)
    (hs : e.sources = [s1, s2])
    (h1 : s1.load_result = Except.ok ts)
    (h2 : s2.load_result = Except.error err) :
    e.reload.2 = some err
    ∧ e.reload.1.registry =
        ts.foldl (fun acc p => acc.registerTemplate p.1 p.2) { templates := [] } := by
  simp [HandlebarsEngine.reload, hs, reloadAux, Source.load, h1, h2, Handlebars.clear_templates]

/-- Witness for C1 at a concrete two-source registry. -/
theorem reload_stops_at_first_failure_witness :
    (HandlebarsEngine.mk
        [Source.mk (Except.ok [("a", fun _ => Except.ok "A")]),
         Source.mk (Except.error { desc := "boom" })]
        { templates := [("old", fun _ => Except.ok "O")] }).reload.2
      = some { desc := "boom" }
    ∧ (HandlebarsEngine.mk
        [Source.mk (Except.ok [("a", fun _ => Except.ok "A")]),
         Source.mk (Except.error { desc := "boom" })]
        { templates := [("old", fun _ => Except.ok "O")] }).reload.1.registry
      = ([("a", fun _ => Except.ok "A")] : List (String × Tmpl)).foldl
          (fun acc p => acc.registerTemplate p.1 p.2) { templates := [] } :=
  reload_stops_at_first_failure _ _ _ _ _ rfl rfl rfl

/-- C3: a response with no marker attached passes through the rendering stage
unchanged (same status, same headers, same body), and the result is not an error. -/
theorem after_no_marker_pass_through (e : HandlebarsEngine) (r : Response)
    (h : r.extensions = none) : e.after r = Except.ok r := by
  simp [HandlebarsEngine.after, h]

/-- Witness for C3 at a concrete markerless response. -/
theorem after_no_marker_pass_through_witness :
    HandlebarsEngine.new2.after
        { status := some 200,
          headers := { contentType := none, rest := [("X-Custom", "y")] },
          body := some "b", extensions := none }
      = Except.ok
        { status := some 200,
          headers := { contentType := none, rest := [("X-Custom", "y")] },
          body := some "b", extensions := none } :=
  after_no_marker_pass_through _ _ rfl

/-- C4: when the attached marker renders successfully, the stage replaces the
body with the rendered page, sets the content type to HTML only when none is
set yet, and leaves the status, the remaining headers and an already-present
content type unchanged. -/
theorem after_render_success (e : HandlebarsEngine) (r : Response) (t : Template)
    (page : String)
    (hm : r.extensions = some t)
    (hr : e.registry.render t.name t.value = Except.ok page) :
    e.after r = Except.ok
      { r with
        headers :=
          { r.headers with
            contentType :=
              if r.headers.contentType.isSome then r.headers.contentType
              else some contentTypeHtml },
        body := some page } := by
  by_cases hc : r.headers.contentType.isSome <;>
    simp [HandlebarsEngine.after, hm, hr, hc]

/-- Witness for C4: rendering "index" over an empty-content-type response. -/
theorem after_render_success_witness :
    (HandlebarsEngine.mk []
        { templates := [("index", fun _ => Except.ok "<h1>Hi</h1>")] }).after
        { status := some 200,
          headers := { contentType := none, rest := [("X-Custom", "y")] },
          body := none,
          extensions := some (Template.new "index" Json.null) }
      = Except.ok
        { status := some 200,
          headers := { contentType := some contentTypeHtml, rest := [("X-Custom", "y")] },
          body := some "<h1>Hi</h1>",
          extensions := some (Template.new "index" Json.null) } :=
  after_render_success _ _ _ _ rfl rfl

/-- C5: when the attached marker fails to render, the stage returns an error
wrapping the render error as its cause with the internal-server-error status,
and every error the stage ever returns arises this way (a render failure is
never swallowed into a normal response). -/
theorem after_render_failure (e : HandlebarsEngine) (r : Response) :
    (∀ t re, r.extensions = some t →
        e.registry.render t.name t.value = Except.error re →
        e.after r = Except.error { cause := re, status := internalServerError })
    ∧ (∀ err, e.after r = Except.error err →
        err.status = internalServerError
        ∧ ∃ t, r.extensions = some t
            ∧ e.registry.render t.name t.value = Except.error err.cause) := by
  constructor
  · intro t re hm hr
    simp [HandlebarsEngine.after, hm, hr]
  · intro err herr
    cases hm : r.extensions with
    | none => simp [HandlebarsEngine.after, hm] at herr
    | some t =>
      cases hr : e.registry.render t.name t.value with
      | ok page => simp [HandlebarsEngine.after, hm, hr] at herr
      | error re =>
        simp [HandlebarsEngine.after, hm, hr] at herr
        exact ⟨by simp [← herr], t, rfl, by simp [← herr, hr]⟩

/-- Witness for C5: a marker naming a missing template yields the 500 error. -/
theorem after_render_failure_witness :
    HandlebarsEngine.new2.after
        { status := none,
          headers := { contentType := none, rest := [] },
          body := some "partial",
          extensions := some (Template.new "missing" Json.null) }
      = Except.error
        { cause := { desc := "Template not found missing" },
          status := internalServerError } :=
  (after_render_failure _ _).1 _ _ rfl rfl

/-- C6: attaching a marker and then extracting it yields the identical marker
(same name, same data), extraction leaves the response untouched, and
extracting again gives the same result (idempotent, non-destructive). -/
theorem template_attach_extract_roundtrip (t : Template) (r : Response) :
    (HandlebarsEngine.eval (t.modify r)).1 = Except.ok t
    ∧ (HandlebarsEngine.eval (t.modify r)).2 = t.modify r
    ∧ HandlebarsEngine.eval (HandlebarsEngine.eval (t.modify r)).2
        = HandlebarsEngine.eval (t.modify r) :=
  ⟨rfl, rfl, rfl⟩

/-- C7: with an unchanged source list, a second successful reload leaves the
renderable output of every template name and data identical to the first. -/
theorem reload_idempotent (e : HandlebarsEngine) (h : e.reload.2 = none) :
    e.reload.1.reload.2 = none
    ∧ ∀ n d, e.reload.1.reload.1.registry.render n d = e.reload.1.registry.render n d := by
  have key : e.reload.1.reload = e.reload := by
    cases e with
    | mk ss reg => rfl
  rw [key]
  exact ⟨h, fun n d => rfl⟩

/-- Witness for C7 at a concrete one-source registry. -/
theorem reload_idempotent_witness :
    (HandlebarsEngine.mk [Source.mk (Except.ok [("a", fun _ => Except.ok "A")])]
        { templates := [] }).reload.1.reload.2 = none
    ∧ ∀ n d,
        (HandlebarsEngine.mk [Source.mk (Except.ok [("a", fun _ => Except.ok "A")])]
            { templates := [] }).reload.1.reload.1.registry.render n d
          = (HandlebarsEngine.mk [Source.mk (Except.ok [("a", fun _ => Except.ok "A")])]
              { templates := [] }).reload.1.registry.render n d :=
  reload_idempotent _ rfl

/-- C9: a registry built from a pre-configured engine loses that engine's
directly-registered templates on any reload; with zero sources, reload
succeeds and leaves no templates at all, and more generally the outcome of
reload never depends on the pre-configured engine's contents. -/
theorem from2_reload_clears (reg reg' : Handlebars) (ss : List Source) :
    (HandlebarsEngine.from2 reg).reload.2 = none
    ∧ (HandlebarsEngine.from2 reg).reload.1.registry.templates = []
    ∧ { HandlebarsEngine.from2 reg with sources := ss }.reload.1.registry
        = { HandlebarsEngine.from2 reg' with sources := ss }.reload.1.registry
    ∧ { HandlebarsEngine.from2 reg with sources := ss }.reload.2
        = { HandlebarsEngine.from2 reg' with sources := ss }.reload.2 :=
  ⟨rfl, rfl, rfl, rfl⟩

/-- C10: the deprecated directory-based constructors run an initial reload and
panic (modelled as `none`) exactly when the directory source's load fails;
they return a registry only when it succeeds, and that registry is the result
of the initial reload. -/
theorem deprecated_ctors_panic_on_load_failure (dir : Source) (custom : Handlebars) :
    (HandlebarsEngine.new dir = none ↔ ∃ e, dir.load_result = Except.error e)
    ∧ (HandlebarsEngine.from' dir custom = none ↔ ∃ e, dir.load_result = Except.error e)
    ∧ (∀ h, HandlebarsEngine.new dir = some h →
        h = (HandlebarsEngine.new2.add dir).reload.1)
    ∧ (∀ h, HandlebarsEngine.from' dir custom = some h →
        h = ((HandlebarsEngine.from2 custom).add dir).reload.1) := by
  cases hd : dir.load_result with
  | ok ts =>
    simp [HandlebarsEngine.new, HandlebarsEngine.from', HandlebarsEngine.add,
      HandlebarsEngine.new2, HandlebarsEngine.from2, HandlebarsEngine.reload,
      reloadAux, Source.load, hd, Handlebars.clear_templates]
  | error e =>
    simp [HandlebarsEngine.new, HandlebarsEngine.from', HandlebarsEngine.add,
      HandlebarsEngine.new2, HandlebarsEngine.from2, HandlebarsEngine.reload,
      reloadAux, Source.load, hd, Handlebars.clear_templates]

/-- Witness for C10: a failing directory source makes the constructor panic. -/
theorem deprecated_ctors_panic_on_load_failure_witness :
    HandlebarsEngine.new (Source.mk (Except.error { desc := "io" })) = none :=
  (deprecated_ctors_panic_on_load_failure
      (Source.mk (Except.error { desc := "io" })) { templates := [] }).1.mpr
    ⟨{ desc := "io" }, rfl⟩

/-- C8: attaching a second marker overwrites the first in the typed-extension
slot; extraction after two attaches returns the marker attached last. -/
theorem second_attach_replaces_first (t1 t2 : Template) (r : Response) :
    t2.modify (t1.modify r) = t2.modify r
    ∧ (HandlebarsEngine.eval (t2.modify (t1.modify r))).1 = Except.ok t2 :=
  ⟨rfl, rfl⟩

/-- The reload result unfolded to the loading loop. -/
theorem reloadResult_eq (ss : List Source) (e0 : Handlebars) :
    reloadResult ss e0 = (reloadAux ss e0.clear_templates).1 := rfl

/-- A full run of `loadFirst` over the whole source list characterizes a
successful pass of the reload loop. -/
theorem loadFirst_done (ss : List Source) (h hN : Handlebars)
    (hl : loadFirst ss ss.length h = some hN) : reloadAux ss h = (hN, none) := by
  induction ss generalizing h with
  | nil =>
    simp [loadFirst] at hl
    simp [reloadAux, hl]
  | cons s ss ih =>
    rw [List.length_cons] at hl
    unfold loadFirst at hl
    cases hsl : s.load h with
    | error e => rw [hsl] at hl; simp at hl
    | ok h' =>
      rw [hsl] at hl
      simpa [reloadAux, hsl] using ih h' hl

/-- When the load of source `i` fails on the engine state reached after the
first `i` loads, the reload loop stops there with that engine state and error. -/
theorem loadFirst_fail (ss : List Source) (i : Nat) (s : Source) (err : SourceError)
    (h hi_eng : Handlebars)
    (hil : loadFirst ss i h = some hi_eng)
    (hget : ss.get? i = some s)
    (hle : s.load hi_eng = Except.error err) :
    reloadAux ss h = (hi_eng, some err) := by
  induction ss generalizing i h with
  | nil => simp at hget
  | cons s0 ss ih =>
    cases i with
    | zero =>
      have h1 : h = hi_eng := by simpa [loadFirst] using hil
      have h2 : s0 = s := by simpa using hget
      subst h1
      subst h2
      simp [reloadAux, hle]
    | succ i =>
      rw [List.get?_cons_succ] at hget
      unfold loadFirst at hil
      cases hs0 : s0.load h with
      | error e => rw [hs0] at hil; simp at hil
      | ok h' =>
        rw [hs0] at hil
        simpa [reloadAux, hs0] using ih i h' hil hget

/-- When the load of source `i` succeeds, `loadFirst` extends by one step. -/
theorem loadFirst_step (ss : List Source) (i : Nat) (s : Source)
    (h hi_eng h' : Handlebars)
    (hil : loadFirst ss i h = some hi_eng)
    (hget : ss.get? i = some s)
    (hlo : s.load hi_eng = Except.ok h') :
    loadFirst ss (i + 1) h = some h' := by
  induction ss generalizing i h with
  | nil => simp at hget
  | cons s0 ss ih =>
    cases i with
    | zero =>
      have h1 : h = hi_eng := by simpa [loadFirst] using hil
      have h2 : s0 = s := by simpa using hget
      subst h1
      subst h2
      unfold loadFirst
      rw [hlo]
      simp [loadFirst]
    | succ i =>
      rw [List.get?_cons_succ] at hget
      unfold loadFirst at hil
      cases hs0 : s0.load h with
      | error e => rw [hs0] at hil; simp at hil
      | ok h'' =>
        rw [hs0] at hil
        unfold loadFirst
        rw [hs0]
        exact ih i h'' hil hget

/-- Before any source has been loaded, `loadFirst` is the given engine state. -/
theorem loadFirst_zero (ss : List Source) (h : Handlebars) : loadFirst ss 0 h = some h := by
  cases ss <;> rfl

/-- The invariant holds initially. -/
theorem inv_init (ss : List Source) (e0 : Handlebars) : Inv ss e0 (initSys e0) :=
  ⟨rfl, fun _ _ hi => ReaderPC.noConfusion hi, fun _ _ hi => ReaderPC.noConfusion hi⟩

/-- The invariant is preserved by every interleaving micro-step. -/
theorem inv_step (ss : List Source) (e0 : Handlebars) {s s' : Sys}
    (hInv : Inv ss e0 s) (hs : Step ss s s') : Inv ss e0 s' := by
  obtain ⟨hw, hhold, hdone⟩ := hInv
  cases hs with
  | acquireW eng rs hnr =>
    dsimp only [Inv] at hw hhold hdone ⊢
    refine ⟨⟨hw, hnr⟩, ?_, hdone⟩
    intro i obs hi
    have hno := hnr i
    rw [hi] at hno
    simp [ReaderPC.isHolding] at hno
  | clearW eng rs =>
    dsimp only [Inv] at hw hhold hdone ⊢
    refine ⟨⟨?_, hw.2⟩, ?_, hdone⟩
    · simp [loadFirst_zero, Handlebars.clear_templates]
    intro i obs hi
    have hno := hw.2 i
    rw [hi] at hno
    simp [ReaderPC.isHolding] at hno
  | loadOkW eng rs i s eng' hi hl =>
    dsimp only [Inv] at hw hhold hdone ⊢
    refine ⟨⟨loadFirst_step ss i s e0.clear_templates eng eng' hw.1 hi hl, hw.2⟩, ?_, hdone⟩
    intro j obs hj
    have hno := hw.2 j
    rw [hj] at hno
    simp [ReaderPC.isHolding] at hno
  | loadFailW eng rs i s err hi hl =>
    dsimp only [Inv] at hw hhold hdone ⊢
    have hra := loadFirst_fail ss i s err e0.clear_templates eng hw.1 hi hl
    refine ⟨?_, ?_, hdone⟩
    · show eng = reloadResult ss e0
      rw [reloadResult_eq, hra]
    · intro j obs hj
      have hno := hw.2 j
      rw [hj] at hno
      simp [ReaderPC.isHolding] at hno
  | finishW eng rs =>
    dsimp only [Inv] at hw hhold hdone ⊢
    have hra := loadFirst_done ss e0.clear_templates eng hw.1
    refine ⟨?_, ?_, hdone⟩
    · show eng = reloadResult ss e0
      rw [reloadResult_eq, hra]
    · intro j obs hj
      have hno := hw.2 j
      rw [hj] at hno
      simp [ReaderPC.isHolding] at hno
  | acquireR eng w rs i hi hw' =>
    dsimp only [Inv] at hw hhold hdone ⊢
    refine ⟨?_, ?_, ?_⟩
    · cases w with
      | beforeLock => exact hw
      | doneW => exact hw
      | inCS k => simp [WriterPC.isInCS] at hw'
    · intro j obs hj
      by_cases hji : j = i
      · subst hji
        rw [Function.update_same] at hj
        cases hj
        rfl
      · rw [Function.update_noteq hji] at hj
        exact hhold j obs hj
    · intro j obs hj
      by_cases hji : j = i
      · subst hji
        rw [Function.update_same] at hj
        exact ReaderPC.noConfusion hj
      · rw [Function.update_noteq hji] at hj
        exact hdone j obs hj
  | releaseR eng w rs i obs hi =>
    dsimp only [Inv] at hw hhold hdone ⊢
    have hobs : obs = eng := hhold i obs hi
    refine ⟨?_, ?_, ?_⟩
    · cases w with
      | beforeLock => exact hw
      | doneW => exact hw
      | inCS k =>
        cases k with
        | zero =>
          have hno := hw.2 i
          rw [hi] at hno
          simp [ReaderPC.isHolding] at hno
        | succ k =>
          have hno := hw.2 i
          rw [hi] at hno
          simp [ReaderPC.isHolding] at hno
    · intro j obs' hj
      by_cases hji : j = i
      · subst hji
        rw [Function.update_same] at hj
        exact ReaderPC.noConfusion hj
      · rw [Function.update_noteq hji] at hj
        exact hhold j obs' hj
    · intro j obs' hj
      by_cases hji : j = i
      · subst hji
        rw [Function.update_same] at hj
        cases hj
        cases w with
        | beforeLock => exact Or.inl (hobs.trans hw)
        | doneW => exact Or.inr (hobs.trans hw)
        | inCS k =>
          cases k with
          | zero =>
            have hno := hw.2 j
            rw [hi] at hno
            simp [ReaderPC.isHolding] at hno
          | succ k =>
            have hno := hw.2 j
            rw [hi] at hno
            simp [ReaderPC.isHolding] at hno
      · rw [Function.update_noteq hji] at hj
        exact hdone j obs' hj

/-- The invariant holds in every reachable state. -/
theorem inv_reach (ss : List Source) (e0 : Handlebars) {s : Sys}
    (hr : Reach ss (initSys e0) s) : Inv ss e0 s := by
  induction hr with
  | refl => exact inv_init ss e0
  | tail _ hs ih => exact inv_step ss e0 ih hs

/-- C2: in every interleaving of concurrent render calls with a concurrent
reload, each render observes either the complete pre-reload template set or
the complete post-reload template set, never a partially populated mid-reload
state — renders take shared and reload exclusive access on the lock for their
whole duration. -/
theorem render_sees_pre_or_post_reload (ss : List Source) (e0 : Handlebars) {s : Sys}
    (hr : Reach ss (initSys e0) s) (i : Nat) (obs : Handlebars)
    (h : s.readers i = ReaderPC.holdingR obs ∨ s.readers i = ReaderPC.doneR obs) :
    obs = e0 ∨ obs = reloadResult ss e0 := by
  obtain ⟨hw, hhold, hdone⟩ := inv_reach ss e0 hr
  cases h with
  | inr hd => exact hdone i obs hd
  | inl hh =>
    have heng : obs = s.engine := hhold i obs hh
    cases hwpc : s.writer with
    | beforeLock =>
      rw [hwpc] at hw
      dsimp only at hw
      exact Or.inl (heng.trans hw)
    | doneW =>
      rw [hwpc] at hw
      dsimp only at hw
      exact Or.inr (heng.trans hw)
    | inCS k =>
      rw [hwpc] at hw
      cases k with
      | zero =>
        have hno := hw.2 i
        rw [hh] at hno
        simp [ReaderPC.isHolding] at hno
      | succ k =>
        have hno := hw.2 i
        rw [hh] at hno
        simp [ReaderPC.isHolding] at hno

/-- Witness for C2: a concrete interleaving in which one render completes
while the reload has not started; its observation is the pre-reload set. -/
theorem render_sees_pre_or_post_reload_witness :
    ({ templates := [] } : Handlebars) = ({ templates := [] } : Handlebars)
    ∨ ({ templates := [] } : Handlebars) = reloadResult [] { templates := [] } :=
  render_sees_pre_or_post_reload [] { templates := [] }
    (Reach.tail
      (Reach.tail Reach.refl
        (Step.acquireR { templates := [] } WriterPC.beforeLock (fun _ => ReaderPC.beforeR) 0
          rfl rfl))
      (Step.releaseR { templates := [] } WriterPC.beforeLock
        (Function.update (fun _ => ReaderPC.beforeR) 0 (ReaderPC.holdingR { templates := [] }))
        0 { templates := [] }
        (by simp)))
    0 { templates := [] }
    (Or.inr (by simp))

end HbIron
